import Mathlib

/-!
Verification of the lane-based travel strategy allocator
`find_optimal_travel_strategy` from `solution.py`.

Shallow embedding conventions: Python integers become `Int`; Python `//`
and `%` become `Int.fdiv` and `Int.fmod` (both floor-style, matching
Python's semantics on negative operands); `math.ceil(a / b)` applied to
integer arguments is modelled as the exact rational ceiling `ceilDiv a b`;
the insertion-ordered `journey_breakdown` dictionary becomes an ordered
association list from person index to `Person`.
-/

/-- Exact ceiling of the rational `a / b` (for `b ≠ 0`): the meaning of
`math.ceil(a / b)` on integer inputs.  `⌈a/b⌉ = -⌊(-a)/b⌋`, and `Int.fdiv`
is floor division. -/
def ceilDiv (a b : Int) : Int := -((-a).fdiv b)

/-- The four vehicle classes C1..C4 (`solution.py` lines 31-42 and 130-139). -/
inductive Seg
  | c1 | c2 | c3 | c4
deriving DecidableEq, Repr

/-- Rated speed in km/h of a vehicle class, which is also the distance one
segment of that class covers in its one-hour slot. -/
def Seg.dist : Seg → Int
  | .c1 => 100
  | .c2 => 200
  | .c3 => 300
  | .c4 => 400

/-- Lane cost of a vehicle class. -/
def Seg.lanesRequired : Seg → Int
  | .c1 => 1
  | .c2 => 2
  | .c3 => 3
  | .c4 => 4

/-- One traveler's record in the journey breakdown (`solution.py`
lines 76-82 and 153-157): lanes reserved, route and total distance covered. -/
structure Person where
  lanesReserved : Int
  route : List Seg
  totalDistanceCovered : Int
deriving DecidableEq, Repr

/-- The result dictionary of `find_optimal_travel_strategy`: either the
distance-validation failure (lines 15-18, an error message only), the
lane-insufficiency failure (lines 43-48, error message plus placeholder
`Time` and `People` fields), or a success strategy (lines 71-83, 159-165). -/
inductive TravelResult
  | invalidDistance (msg : String)
  | insufficientLanes (msg : String) (time : String) (people : Int)
  | success (optimalTimeHours maxPeople totalDistanceKm availableLanes : Int)
      (journeyBreakdown : List (Nat × Person))
deriving DecidableEq, Repr

/-- Line 118 with the override of lines 120-121: the distance the current
traveler is assigned, `min(remaining_total_dist, target)`, forced to `0`
when `remaining_total_dist <= 0`. -/
def distToCover (remaining target : Int) : Int :=
  let dtc := min remaining target
  if remaining ≤ 0 then 0 else dtc

/-- Line 145: `full_c4_segments * 400 + remaining_dist_segment`, the distance
the traveler actually covers, computed from `dist_to_cover` via floor
division and floor remainder by 400 (lines 123-124). -/
def coveredOf (dtc : Int) : Int := dtc.fdiv 400 * 400 + dtc.fmod 400

/-- Lines 133-140: the optional final segment matching an exact remainder of
100, 200 or 300 km; any other remainder produces no segment. -/
def remainderRoute (rem : Int) : List Seg :=
  if rem = 100 then [Seg.c1]
  else if rem = 200 then [Seg.c2]
  else if rem = 300 then [Seg.c3]
  else []

/-- Lines 123-140: the route built for an assigned distance —
`dist_to_cover // 400` full C4 segments followed by the matched remainder
segment, if any. -/
def routeOf (dtc : Int) : List Seg :=
  List.replicate (dtc.fdiv 400).toNat Seg.c4 ++ remainderRoute (dtc.fmod 400)

/-- The loop of lines 110-157: person `i` is processed against the running
`remaining` distance; a person whose route is empty while `min_time > 0` is
omitted (lines 149-151); `n` counts the iterations left. -/
def multiPersons (target minTime : Int) : Nat → Nat → Int → List (Nat × Person)
  | 0, _, _ => []
  | n + 1, i, remaining =>
    let dtc := distToCover remaining target
    let route := routeOf dtc
    let covered := coveredOf dtc
    let rest := multiPersons target minTime n (i + 1) (remaining - covered)
    if route.isEmpty ∧ 0 < minTime then rest else (i, ⟨4, route, covered⟩) :: rest

/-- The running `remaining_total_dist` after `n` iterations of the loop of
lines 110-157, starting from `r`. -/
def remainingAfter (target : Int) : Nat → Int → Int
  | 0, r => r
  | n + 1, r => remainingAfter target n (r - coveredOf (distToCover r target))

/-- The sum of `dist_to_cover` over the first `n` iterations of the loop of
lines 110-157, starting from remaining distance `r` — including iterations
whose person is omitted from the output. -/
def assignedTotal (target : Int) : Nat → Int → Int
  | 0, _ => 0
  | n + 1, r =>
    distToCover r target + assignedTotal target n (r - coveredOf (distToCover r target))

/-- Lines 50-83: the single-traveler fallback.  `min_time = ceil(d / speed)`
segments are emitted: `min_time - 1` in the loop of lines 59-61, plus one
more when the remaining distance is still positive (lines 64-69).  The
person always reports the full input distance as covered (line 80). -/
def singleTravelerStrategy (d lanes speed lanesUsed : Int) (cls : Seg) :
    TravelResult :=
  let min_time := ceilDiv d speed
  let k := (min_time - 1).toNat
  let segs := List.replicate k cls
  let remaining := d - speed * (k : Int)
  let segs := if 0 < remaining then segs ++ [cls] else segs
  .success min_time 1 d lanes [(1, ⟨lanesUsed, segs, d⟩)]

/-- The function `find_optimal_travel_strategy` of `solution.py`
(lines 3-165).
`distance_share / 400` rounded up then scaled (line 118) is
`400 * ceil(d / (400 * max_people))` exactly. -/
def find_optimal_travel_strategy (distance_km available_lanes : Int) :
    TravelResult :=
  if distance_km ≤ 0 then
    .invalidDistance "Distance must be greater than 0."
  else
    let max_people := available_lanes.fdiv 4
    if max_people = 0 then
      if 3 ≤ available_lanes then
        singleTravelerStrategy distance_km available_lanes 300 3 Seg.c3
      else if 2 ≤ available_lanes then
        singleTravelerStrategy distance_km available_lanes 200 2 Seg.c2
      else if 1 ≤ available_lanes then
        singleTravelerStrategy distance_km available_lanes 100 1 Seg.c1
      else
        .insufficientLanes
          "Insufficient lanes. At least 1 lane required to start any journey."
          "N/A" 0
    else
      let min_time := ceilDiv distance_km (400 * max_people)
      let target := 400 * ceilDiv distance_km (400 * max_people)
      .success min_time max_people distance_km available_lanes
        (multiPersons target min_time max_people.toNat 1 distance_km)

/-- Sum of the `Total Distance Covered` entries over a journey breakdown. -/
def breakdownDistSum (jb : List (Nat × Person)) : Int :=
  (jb.map fun x => x.2.totalDistanceCovered).sum

/-- Sum of the segment distances along a traveler's route. -/
def Person.routeDistSum (p : Person) : Int := (p.route.map Seg.dist).sum

/-- A distance whose remainder modulo 400 is exactly `0`, `100`, `200` or
`300` km — the remainders that lines 133-140 can represent as a segment. -/
abbrev RegularRem (r : Int) : Prop :=
  r.fmod 400 = 0 ∨ r.fmod 400 = 100 ∨ r.fmod 400 = 200 ∨ r.fmod 400 = 300

/-! ### Arithmetic facts about `ceilDiv`, `Int.fdiv` and `Int.fmod` -/

theorem ceilDiv_eq_neg_ediv (a : Int) {b : Int} (hb : 0 ≤ b) :
    ceilDiv a b = -((-a) / b) := by
  unfold ceilDiv
  rw [Int.fdiv_eq_ediv _ hb]

theorem le_mul_ceilDiv (a : Int) {b : Int} (hb : 0 < b) :
    a ≤ b * ceilDiv a b := by
  rw [ceilDiv_eq_neg_ediv a hb.le]
  have h1 := Int.ediv_add_emod (-a) b
  have h2 := Int.emod_nonneg (-a) (ne_of_gt hb)
  nlinarith [h1, h2]

theorem mul_ceilDiv_sub_one_lt (a : Int) {b : Int} (hb : 0 < b) :
    b * (ceilDiv a b - 1) < a := by
  rw [ceilDiv_eq_neg_ediv a hb.le]
  have h1 := Int.ediv_add_emod (-a) b
  have h3 := Int.emod_lt_of_pos (-a) hb
  nlinarith [h1, h3]

theorem ceilDiv_pos {a b : Int} (ha : 0 < a) (hb : 0 < b) :
    1 ≤ ceilDiv a b := by
  by_contra h
  push_neg at h
  have h1 := le_mul_ceilDiv a hb
  nlinarith

theorem ceilDiv_mul_self {b : Int} (m : Int) (hb : 0 < b) :
    ceilDiv (b * m) b = m := by
  have h1 := le_mul_ceilDiv (b * m) hb
  have h2 := mul_ceilDiv_sub_one_lt (b * m) hb
  have h3 : m ≤ ceilDiv (b * m) b := le_of_mul_le_mul_left h1 hb
  have h4 : ceilDiv (b * m) b - 1 < m := lt_of_mul_lt_mul_left h2 hb.le
  omega

theorem coveredOf_eq (dtc : Int) : coveredOf dtc = dtc := by
  unfold coveredOf
  have h := Int.fdiv_add_fmod dtc 400
  linarith

theorem fdiv_400_mul (m : Int) : (400 * m).fdiv 400 = m := by
  rw [Int.fdiv_eq_ediv _ (by norm_num)]
  exact Int.mul_ediv_cancel_left m (by norm_num)

theorem fmod_400_mul (m : Int) : (400 * m).fmod 400 = 0 := by
  rw [Int.fmod_eq_emod _ (by norm_num)]
  exact Int.mul_emod_right 400 m

theorem fdiv_four_pos {lanes : Int} (hl : 4 ≤ lanes) : 1 ≤ lanes.fdiv 4 := by
  rw [Int.fdiv_eq_ediv _ (by norm_num)]
  omega

/-! ### Shape of the result on each path -/

theorem multi_path_eq (d lanes : Int) (hd : 0 < d) (hl : 4 ≤ lanes) :
    find_optimal_travel_strategy d lanes =
      .success (ceilDiv d (400 * lanes.fdiv 4)) (lanes.fdiv 4) d lanes
        (multiPersons (400 * ceilDiv d (400 * lanes.fdiv 4))
          (ceilDiv d (400 * lanes.fdiv 4)) (lanes.fdiv 4).toNat 1 d) := by
  have hp := fdiv_four_pos hl
  unfold find_optimal_travel_strategy
  rw [if_neg (by omega), if_neg (by omega)]

theorem singleTravelerStrategy_eq (d lanes s lu : Int) (cls : Seg)
    (hd : 0 < d) (hs : 0 < s) :
    singleTravelerStrategy d lanes s lu cls =
      .success (ceilDiv d s) 1 d lanes
        [(1, ⟨lu, List.replicate (ceilDiv d s).toNat cls, d⟩)] := by
  have ht : 1 ≤ ceilDiv d s := ceilDiv_pos hd hs
  have hcast : ((ceilDiv d s - 1).toNat : Int) = ceilDiv d s - 1 :=
    Int.toNat_of_nonneg (by omega)
  have hrem : 0 < d - s * ((ceilDiv d s - 1).toNat : Int) := by
    rw [hcast]
    have := mul_ceilDiv_sub_one_lt d hs
    omega
  unfold singleTravelerStrategy
  dsimp only
  rw [if_pos hrem, ← List.replicate_succ']
  have hnat : (ceilDiv d s - 1).toNat + 1 = (ceilDiv d s).toNat := by omega
  rw [hnat]

theorem fdiv_400_nonneg {r : Int} (h : 0 ≤ r) : 0 ≤ r.fdiv 400 := by
  rw [Int.fdiv_eq_ediv _ (by norm_num)]
  exact Int.ediv_nonneg h (by norm_num)

theorem fmod_sub_400_mul (r k : Int) : (r - 400 * k).fmod 400 = r.fmod 400 := by
  rw [Int.fmod_eq_emod _ (by norm_num), Int.fmod_eq_emod _ (by norm_num)]
  omega

theorem regularRem_zero : RegularRem 0 := Or.inl (by simp)

theorem routeOf_facts (dtc : Int) (h0 : 0 ≤ dtc) (hS : RegularRem dtc) :
    ((routeOf dtc).map Seg.dist).sum = dtc ∧ (routeOf dtc = [] ↔ dtc = 0) := by
  have hf : 0 ≤ dtc.fdiv 400 := fdiv_400_nonneg h0
  have hid : 400 * dtc.fdiv 400 + dtc.fmod 400 = dtc := Int.fdiv_add_fmod dtc 400
  have hrep : ((List.replicate (dtc.fdiv 400).toNat Seg.c4).map Seg.dist).sum
      = dtc.fdiv 400 * 400 := by
    rw [List.map_replicate, List.sum_replicate, nsmul_eq_mul,
      Int.toNat_of_nonneg hf, Seg.dist]
  have hroute : routeOf dtc
      = List.replicate (dtc.fdiv 400).toNat Seg.c4
        ++ remainderRoute (dtc.fmod 400) := rfl
  have hS' : dtc.fmod 400 = 0 ∨ dtc.fmod 400 = 100 ∨ dtc.fmod 400 = 200 ∨
      dtc.fmod 400 = 300 := hS
  rcases hS' with h | h | h | h
  · have hrr : remainderRoute (dtc.fmod 400) = [] := by
      rw [h]; norm_num [remainderRoute]
    constructor
    · rw [hroute, hrr, List.append_nil, hrep]; omega
    · rw [hroute, hrr, List.append_nil, List.replicate_eq_nil_iff]; omega
  · have hrr : remainderRoute (dtc.fmod 400) = [Seg.c1] := by
      rw [h]; norm_num [remainderRoute]
    constructor
    · rw [hroute, hrr, List.map_append, List.sum_append, hrep]
      simp [Seg.dist]; omega
    · rw [hroute, hrr]; simp; omega
  · have hrr : remainderRoute (dtc.fmod 400) = [Seg.c2] := by
      rw [h]; norm_num [remainderRoute]
    constructor
    · rw [hroute, hrr, List.map_append, List.sum_append, hrep]
      simp [Seg.dist]; omega
    · rw [hroute, hrr]; simp; omega
  · have hrr : remainderRoute (dtc.fmod 400) = [Seg.c3] := by
      rw [h]; norm_num [remainderRoute]
    constructor
    · rw [hroute, hrr, List.map_append, List.sum_append, hrep]
      simp [Seg.dist]; omega
    · rw [hroute, hrr]; simp; omega

theorem multiPersons_invariant (mt k : Int) (hk : 1 ≤ k) :
    ∀ (n : Nat) (i : Nat) (r : Int), 0 ≤ r → r ≤ (n : Int) * (400 * k) →
      RegularRem r →
      breakdownDistSum (multiPersons (400 * k) mt n i r) = r ∧
      ∀ x ∈ multiPersons (400 * k) mt n i r,
        Person.routeDistSum x.2 = x.2.totalDistanceCovered := by
  intro n
  induction n with
  | zero =>
    intro i r h0 hle _
    simp only [Nat.cast_zero, zero_mul] at hle
    have hr0 : r = 0 := le_antisymm hle h0
    subst hr0
    refine ⟨by simp [multiPersons, breakdownDistSum], ?_⟩
    intro x hx
    simp [multiPersons] at hx
  | succ n ih =>
    intro i r h0 hle hS
    have hkpos : (0 : Int) < 400 * k := by omega
    have hn0 : (0 : Int) ≤ (n : Int) * (400 * k) :=
      mul_nonneg (Int.natCast_nonneg n) (by omega)
    by_cases hr : r ≤ 0
    · -- remaining distance is zero: the override of lines 120-121 fires
      have hr0 : r = 0 := le_antisymm hr h0
      subst hr0
      have hd0 : distToCover 0 (400 * k) = 0 := by
        simp [distToCover]
      have hroute : routeOf 0 = [] := by
        simp [routeOf, remainderRoute]
      have hrest := ih (i + 1) 0 le_rfl hn0 regularRem_zero
      rw [multiPersons, hd0, coveredOf_eq, hroute]
      simp only [List.isEmpty_nil, sub_zero, true_and]
      by_cases hmt : 0 < mt
      · rw [if_pos hmt]
        exact hrest
      · rw [if_neg hmt]
        refine ⟨?_, ?_⟩
        · simp only [breakdownDistSum, List.map_cons, List.sum_cons] at *
          omega
        · intro x hx
          rcases List.mem_cons.mp hx with hx | hx
          · subst hx
            simp [Person.routeDistSum]
          · exact hrest.2 x hx
    · push_neg at hr
      have hdtc : distToCover r (400 * k) = min r (400 * k) := by
        simp only [distToCover]
        rw [if_neg (not_le.mpr hr)]
      by_cases hT : 400 * k ≤ r
      · -- a full target share is assigned
        have hmin : distToCover r (400 * k) = 400 * k := by
          rw [hdtc, min_eq_right hT]
        have hSfull : RegularRem (400 * k) := Or.inl (fmod_400_mul k)
        have hfacts := routeOf_facts (400 * k) hkpos.le hSfull
        have hne : routeOf (400 * k) ≠ [] := fun h => by
          have := hfacts.2.mp h
          omega
        have hrest := ih (i + 1) (r - 400 * k) (by omega)
          (by push_cast at hle ⊢; nlinarith)
          (by
            have : RegularRem (r - 400 * k) := by
              unfold RegularRem
              rw [fmod_sub_400_mul]
              exact hS
            exact this)
        rw [multiPersons, hmin, coveredOf_eq]
        rw [if_neg (by
          intro hcond
          exact hne (List.isEmpty_iff.mp hcond.1))]
        refine ⟨?_, ?_⟩
        · simp only [breakdownDistSum, List.map_cons, List.sum_cons] at *
          omega
        · intro x hx
          rcases List.mem_cons.mp hx with hx | hx
          · subst hx
            exact hfacts.1
          · exact hrest.2 x hx
      · -- the last nonzero share: the whole remaining distance is assigned
        push_neg at hT
        have hmin : distToCover r (400 * k) = r := by
          rw [hdtc, min_eq_left hT.le]
        have hfacts := routeOf_facts r h0 hS
        have hne : routeOf r ≠ [] := fun h => by
          have := hfacts.2.mp h
          omega
        have hrest := ih (i + 1) (r - r) (by omega)
          (by rw [sub_self]; exact hn0)
          (by rw [sub_self]; exact regularRem_zero)
        rw [multiPersons, hmin, coveredOf_eq]
        rw [if_neg (by
          intro hcond
          exact hne (List.isEmpty_iff.mp hcond.1))]
        refine ⟨?_, ?_⟩
        · simp only [breakdownDistSum, List.map_cons, List.sum_cons] at *
          omega
        · intro x hx
          rcases List.mem_cons.mp hx with hx | hx
          · subst hx
            exact hfacts.1
          · exact hrest.2 x hx

theorem replicate_map_dist_sum (j : Nat) (cls : Seg) :
    ((List.replicate j cls).map Seg.dist).sum = (j : Int) * cls.dist := by
  rw [List.map_replicate, List.sum_replicate, nsmul_eq_mul]

theorem fallback_path_eq (d lanes : Int) (hd : 0 < d) (h1 : 1 ≤ lanes)
    (h3 : lanes ≤ 3) :
    find_optimal_travel_strategy d lanes =
      singleTravelerStrategy d lanes (100 * lanes) lanes
        (if lanes = 3 then Seg.c3 else if lanes = 2 then Seg.c2 else Seg.c1) := by
  interval_cases lanes
  · unfold find_optimal_travel_strategy
    rw [if_neg (by omega)]
    dsimp only
    rw [if_pos (by decide), if_neg (by norm_num), if_neg (by norm_num),
      if_pos (by norm_num)]
    norm_num
  · unfold find_optimal_travel_strategy
    rw [if_neg (by omega)]
    dsimp only
    rw [if_pos (by decide), if_neg (by norm_num), if_pos (by norm_num)]
    norm_num
  · unfold find_optimal_travel_strategy
    rw [if_neg (by omega)]
    dsimp only
    rw [if_pos (by decide), if_pos (by norm_num)]
    norm_num

theorem multiPersons_exact (mt m : Int) (hm : 1 ≤ m) :
    ∀ (n i : Nat), multiPersons (400 * m) mt n i ((n : Int) * (400 * m)) =
      (List.range n).map
        (fun j => (i + j, ⟨4, List.replicate m.toNat Seg.c4, 400 * m⟩)) := by
  intro n
  induction n with
  | zero => intro i; simp [multiPersons]
  | succ n ih =>
    intro i
    have hge : 400 * m ≤ ((n : Int) + 1) * (400 * m) := by nlinarith [Int.natCast_nonneg n]
    have hdtc : distToCover (((n : Nat) + 1 : Nat) * (400 * m) : Int) (400 * m) = 400 * m := by
      push_cast
      simp only [distToCover]
      rw [if_neg (by nlinarith [Int.natCast_nonneg n]), min_eq_right]
      linarith [hge]
    have hroute : routeOf (400 * m) = List.replicate m.toNat Seg.c4 := by
      unfold routeOf
      rw [fdiv_400_mul, fmod_400_mul]
      norm_num [remainderRoute]
    have hne : routeOf (400 * m) ≠ [] := by
      rw [hroute]
      simp [List.replicate_eq_nil_iff]
      omega
    rw [multiPersons, hdtc, coveredOf_eq, hroute]
    rw [if_neg (by
      intro hcond
      rw [← hroute] at hcond
      exact hne (List.isEmpty_iff.mp hcond.1))]
    have hsub : ((n : Nat) + 1 : Nat) * (400 * m) - 400 * m = (n : Int) * (400 * m) := by
      push_cast
      ring
    rw [hsub, ih (i + 1), List.range_succ_eq_map, List.map_cons, List.map_map]
    refine congrArg₂ List.cons (by simp) ?_
    symm
    apply List.map_congr_left
    intro a _
    simp only [Function.comp, Prod.mk.injEq]
    refine ⟨by omega, trivial⟩

theorem remainingAfter_nonneg (T : Int) :
    ∀ (n : Nat) (r : Int), 0 ≤ r → 0 ≤ remainingAfter T n r := by
  intro n
  induction n with
  | zero => intro r h; exact h
  | succ n ih =>
    intro r h
    rw [remainingAfter, coveredOf_eq]
    apply ih
    simp only [distToCover]
    by_cases hr : r ≤ 0
    · rw [if_pos hr]; omega
    · rw [if_neg hr]
      have h1 : min r T ≤ r := min_le_left r T
      omega

theorem assignedTotal_eq (T : Int) (hT : 0 < T) :
    ∀ (n : Nat) (r : Int), 0 ≤ r → r ≤ (n : Int) * T → assignedTotal T n r = r := by
  intro n
  induction n with
  | zero =>
    intro r h0 hle
    simp only [Nat.cast_zero, zero_mul] at hle
    rw [assignedTotal]
    omega
  | succ n ih =>
    intro r h0 hle
    have hn0 : (0 : Int) ≤ (n : Int) * T := mul_nonneg (Int.natCast_nonneg n) hT.le
    rw [assignedTotal, coveredOf_eq]
    by_cases hr : r ≤ 0
    · have hr0 : r = 0 := le_antisymm hr h0
      subst hr0
      have hd0 : distToCover 0 T = 0 := by simp [distToCover]
      rw [hd0]
      have := ih 0 le_rfl hn0
      simpa using this
    · push_neg at hr
      have hdtc : distToCover r T = min r T := by
        simp only [distToCover]
        rw [if_neg (not_le.mpr hr)]
      rw [hdtc]
      by_cases hrT : T ≤ r
      · rw [min_eq_right hrT]
        have := ih (r - T) (by omega) (by
          push_cast at hle ⊢
          nlinarith)
        omega
      · rw [min_eq_left (le_of_not_le hrT)]
        have := ih (r - r) (by omega) (by rw [sub_self]; exact hn0)
        omega

/-! ### The claims -/

/-- Claim C1: for every input with distance > 0 and lanes ≥ 4,
`find_optimal_travel_strategy` returns a success result whose `Max People`
equals `lanes // 4` and whose `Optimal Time (hours)` equals
`ceil(distance / (400 * maxPeople))`. -/
theorem claim_C1_time_and_people (d lanes : Int) (hd : 0 < d) (hl : 4 ≤ lanes) :
    ∃ jb, find_optimal_travel_strategy d lanes =
      .success (ceilDiv d (400 * lanes.fdiv 4)) (lanes.fdiv 4) d lanes jb :=
  ⟨_, multi_path_eq d lanes hd hl⟩

/-- Witness for C1 at distance 800, lanes 8: time 1, people 2. -/
theorem claim_C1_witness :
    ∃ jb, find_optimal_travel_strategy 800 8 = .success 1 2 800 8 jb :=
  claim_C1_time_and_people 800 8 (by decide) (by decide)

/-- Claim C6: for every input with distance ≤ 0, the function returns the
distance-validation failure, a result carrying only an error message and
none of the time, people or journey fields. -/
theorem claim_C6_invalid_distance (d lanes : Int) (hd : d ≤ 0) :
    find_optimal_travel_strategy d lanes =
      .invalidDistance "Distance must be greater than 0." := by
  unfold find_optimal_travel_strategy
  rw [if_pos hd]

/-- Witness for C6 at distance 0, lanes 7. -/
theorem claim_C6_witness :
    find_optimal_travel_strategy 0 7 =
      .invalidDistance "Distance must be greater than 0." :=
  claim_C6_invalid_distance 0 7 (by decide)

/-- Claim C9: the distance check precedes the lane check — distance ≤ 0
always yields the InvalidDistance failure whatever the lanes value, and an
InsufficientLanes failure can only be returned when distance > 0. -/
theorem claim_C9_distance_check_first (d lanes : Int) :
    (d ≤ 0 → find_optimal_travel_strategy d lanes =
      .invalidDistance "Distance must be greater than 0.") ∧
    (∀ msg time people, find_optimal_travel_strategy d lanes =
      .insufficientLanes msg time people → 0 < d) := by
  constructor
  · intro hd
    unfold find_optimal_travel_strategy
    rw [if_pos hd]
  · intro msg time people heq
    by_contra hval
    push_neg at hval
    unfold find_optimal_travel_strategy at heq
    rw [if_pos hval] at heq
    simp at heq

/-- Witness for C9 at distance -5 and lanes 0 (both checks would fire; the
distance one wins). -/
theorem claim_C9_witness :
    find_optimal_travel_strategy (-5) 0 =
      .invalidDistance "Distance must be greater than 0." :=
  (claim_C9_distance_check_first (-5) 0).1 (by decide)

/-- Claim C10: the function is deterministic — identical `(distance, lanes)`
arguments produce identical results. -/
theorem claim_C10_deterministic (d1 l1 d2 l2 : Int) (hd : d1 = d2)
    (hl : l1 = l2) :
    find_optimal_travel_strategy d1 l1 = find_optimal_travel_strategy d2 l2 := by
  rw [hd, hl]

/-- Witness for C10 at (1000, 4). -/
theorem claim_C10_witness :
    find_optimal_travel_strategy 1000 4 = find_optimal_travel_strategy 1000 4 :=
  claim_C10_deterministic 1000 4 1000 4 rfl rfl

/-- Claim C4 (code-bug evidence): with distance 100, lanes 0 does produce
the InsufficientLanes failure, but lanes -1 — although `lanes < 1` — skips
it: `(-1) // 4 = -1 ≠ 0` in Python's floor division, so the multi-traveler
path runs and returns a success-shaped result with `Max People = -1`, an
`Optimal Time` of 0 and an empty journey breakdown. -/
theorem claim_C4_negative_lanes_bug :
    find_optimal_travel_strategy 100 0 =
      .insufficientLanes
        "Insufficient lanes. At least 1 lane required to start any journey."
        "N/A" 0 ∧
    find_optimal_travel_strategy 100 (-1) = .success 0 (-1) 100 (-1) [] := by
  decide

/-- Claim C2 counterexample: at distance 450 and lanes 8 the returned
breakdown contains only Person 1 with 400 km covered — Person 2's 50 km
share yields an empty route, so the person is omitted and the breakdown sum
is 400, not 450. -/
theorem claim_C2_counterexample :
    find_optimal_travel_strategy 450 8 =
      .success 1 2 450 8 [(1, ⟨4, [Seg.c4], 400⟩)] ∧
    breakdownDistSum [(1, (⟨4, [Seg.c4], 400⟩ : Person))] ≠ 450 := by
  decide

/-- Claim C2 (amended): for distance > 0 and lanes ≥ 1, the breakdown's
`Total Distance Covered` entries sum to the input distance, provided that
for lanes ≥ 4 the distance's remainder modulo 400 is one of 0, 100, 200 or
300 (otherwise the trailing irregular share can be assigned to a traveler
whose route is empty, who is then omitted together with that share). -/
theorem claim_C2_amended (d lanes : Int) (hd : 0 < d) (hl : 1 ≤ lanes)
    (hreg : 4 ≤ lanes → RegularRem d) :
    ∀ t p td al jb,
      find_optimal_travel_strategy d lanes = .success t p td al jb →
      breakdownDistSum jb = d := by
  intro t p td al jb heq
  by_cases h4 : 4 ≤ lanes
  · rw [multi_path_eq d lanes hd h4] at heq
    injection heq with h1 h2 h3 h4' h5
    subst h5
    have hp : 1 ≤ lanes.fdiv 4 := fdiv_four_pos h4
    have hbpos : (0 : Int) < 400 * lanes.fdiv 4 := by omega
    have hk : 1 ≤ ceilDiv d (400 * lanes.fdiv 4) := ceilDiv_pos hd hbpos
    have hcast : ((lanes.fdiv 4).toNat : Int) = lanes.fdiv 4 :=
      Int.toNat_of_nonneg (by omega)
    have hbound : d ≤ ((lanes.fdiv 4).toNat : Int)
        * (400 * ceilDiv d (400 * lanes.fdiv 4)) := by
      rw [hcast]
      calc d ≤ (400 * lanes.fdiv 4) * ceilDiv d (400 * lanes.fdiv 4) :=
            le_mul_ceilDiv d hbpos
        _ = lanes.fdiv 4 * (400 * ceilDiv d (400 * lanes.fdiv 4)) := by ring
    exact (multiPersons_invariant (ceilDiv d (400 * lanes.fdiv 4))
      (ceilDiv d (400 * lanes.fdiv 4)) hk (lanes.fdiv 4).toNat 1 d hd.le
      hbound (hreg h4)).1
  · push_neg at h4
    rw [fallback_path_eq d lanes hd hl (by omega),
      singleTravelerStrategy_eq d lanes (100 * lanes) lanes _ hd (by omega)] at heq
    injection heq with h1 h2 h3 h4' h5
    subst h5
    simp [breakdownDistSum]

/-- Witness for the amended C2 at distance 1000, lanes 4: the single
traveler covers the full 1000 km. -/
theorem claim_C2_witness :
    breakdownDistSum [(1, (⟨4, [Seg.c4, Seg.c4, Seg.c2], 1000⟩ : Person))]
      = 1000 :=
  claim_C2_amended 1000 4 (by decide) (by decide) (by decide)
    3 1 1000 4 [(1, (⟨4, [Seg.c4, Seg.c4, Seg.c2], 1000⟩ : Person))] (by decide)

/-- Claim C3 counterexample: at distance 450 and lanes 4, Person 1 is
present in the breakdown reporting 450 km covered, but the route is a
single 400 km segment — the irregular 50 km remainder is dropped, so the
route's segment distances sum to 400, not 450. -/
theorem claim_C3_counterexample :
    find_optimal_travel_strategy 450 4 =
      .success 2 1 450 4 [(1, ⟨4, [Seg.c4], 450⟩)] ∧
    Person.routeDistSum ⟨4, [Seg.c4], 450⟩ ≠ 450 := by
  decide

/-- Claim C3 (amended): for distance > 0 and lanes ≥ 1, every traveler
present in the breakdown has a route whose segment distances sum to their
`Total Distance Covered`, provided that for lanes ≥ 4 the distance's
remainder modulo 400 is one of 0, 100, 200, 300 (so no irregular remainder
is dropped), and that for lanes ≤ 3 the selected fallback speed
`100 * lanes` divides the distance (so the fallback's fixed segment count
matches the distance exactly). -/
theorem claim_C3_amended (d lanes : Int) (hd : 0 < d) (hl : 1 ≤ lanes)
    (hreg : 4 ≤ lanes → RegularRem d)
    (hdvd : lanes ≤ 3 → (100 * lanes) ∣ d) :
    ∀ t p td al jb,
      find_optimal_travel_strategy d lanes = .success t p td al jb →
      ∀ x ∈ jb, Person.routeDistSum x.2 = x.2.totalDistanceCovered := by
  intro t p td al jb heq
  by_cases h4 : 4 ≤ lanes
  · rw [multi_path_eq d lanes hd h4] at heq
    injection heq with h1 h2 h3 h4' h5
    subst h5
    have hp : 1 ≤ lanes.fdiv 4 := fdiv_four_pos h4
    have hbpos : (0 : Int) < 400 * lanes.fdiv 4 := by omega
    have hk : 1 ≤ ceilDiv d (400 * lanes.fdiv 4) := ceilDiv_pos hd hbpos
    have hcast : ((lanes.fdiv 4).toNat : Int) = lanes.fdiv 4 :=
      Int.toNat_of_nonneg (by omega)
    have hbound : d ≤ ((lanes.fdiv 4).toNat : Int)
        * (400 * ceilDiv d (400 * lanes.fdiv 4)) := by
      rw [hcast]
      calc d ≤ (400 * lanes.fdiv 4) * ceilDiv d (400 * lanes.fdiv 4) :=
            le_mul_ceilDiv d hbpos
        _ = lanes.fdiv 4 * (400 * ceilDiv d (400 * lanes.fdiv 4)) := by ring
    exact (multiPersons_invariant (ceilDiv d (400 * lanes.fdiv 4))
      (ceilDiv d (400 * lanes.fdiv 4)) hk (lanes.fdiv 4).toNat 1 d hd.le
      hbound (hreg h4)).2
  · push_neg at h4
    have hs : (0 : Int) < 100 * lanes := by omega
    obtain ⟨c, hc⟩ := hdvd (by omega)
    have hcpos : 1 ≤ c := by nlinarith
    have hceil : ceilDiv d (100 * lanes) = c := by
      rw [hc]
      exact ceilDiv_mul_self c hs
    rw [fallback_path_eq d lanes hd hl (by omega),
      singleTravelerStrategy_eq d lanes (100 * lanes) lanes _ hd hs] at heq
    injection heq with h1 h2 h3 h4' h5
    subst h5
    intro x hx
    rcases List.mem_singleton.mp hx with rfl
    show Person.routeDistSum _ = _
    rw [Person.routeDistSum]
    dsimp only
    rw [replicate_map_dist_sum, hceil, Int.toNat_of_nonneg (by omega)]
    have hdist : (if lanes = 3 then Seg.c3
        else if lanes = 2 then Seg.c2 else Seg.c1).dist = 100 * lanes := by
      interval_cases lanes <;> norm_num [Seg.dist]
    rw [hdist, hc]
    ring

/-- Witness for the amended C3 at distance 1000, lanes 4: Person 1's route
C4 + C4 + C2 sums to the reported 1000 km. -/
theorem claim_C3_witness :
    Person.routeDistSum ⟨4, [Seg.c4, Seg.c4, Seg.c2], 1000⟩ = 1000 :=
  claim_C3_amended 1000 4 (by decide) (by decide) (by decide) (by decide)
    3 1 1000 4 [(1, (⟨4, [Seg.c4, Seg.c4, Seg.c2], 1000⟩ : Person))] (by decide)
    (1, (⟨4, [Seg.c4, Seg.c4, Seg.c2], 1000⟩ : Person)) (by decide)

/-- Claim C5: for distance > 0 and 1 ≤ lanes ≤ 3 the fallback path returns
a success with one traveler, whose vehicle class is the fastest class whose
lane cost fits the lane budget, whose lane reservation is that class's lane
cost, whose time is `ceil(distance / speed)`, and whose route is exactly
that many segments of that single class. -/
theorem claim_C5_low_lane_fallback (d lanes : Int) (hd : 0 < d)
    (h1 : 1 ≤ lanes) (h3 : lanes ≤ 3) :
    ∃ cls : Seg,
      cls.lanesRequired ≤ lanes ∧
      (∀ c : Seg, c.lanesRequired ≤ lanes → c.dist ≤ cls.dist) ∧
      find_optimal_travel_strategy d lanes =
        .success (ceilDiv d cls.dist) 1 d lanes
          [(1, ⟨cls.lanesRequired,
            List.replicate (ceilDiv d cls.dist).toNat cls, d⟩)] := by
  refine ⟨if lanes = 3 then Seg.c3 else if lanes = 2 then Seg.c2 else Seg.c1,
    ?_, ?_, ?_⟩
  · interval_cases lanes <;> norm_num [Seg.lanesRequired]
  · intro c hc
    interval_cases lanes <;> cases c <;>
      simp_all [Seg.lanesRequired, Seg.dist]
  · have hdist : (if lanes = 3 then Seg.c3
        else if lanes = 2 then Seg.c2 else Seg.c1).dist = 100 * lanes := by
      interval_cases lanes <;> norm_num [Seg.dist]
    have hlr : (if lanes = 3 then Seg.c3
        else if lanes = 2 then Seg.c2 else Seg.c1).lanesRequired = lanes := by
      interval_cases lanes <;> norm_num [Seg.lanesRequired]
    rw [fallback_path_eq d lanes hd h1 h3,
      singleTravelerStrategy_eq d lanes (100 * lanes) lanes _ hd (by omega),
      hdist, hlr]

/-- Witness for C5 at distance 100, lanes 2: the selected class is the
2-lane 200 km/h class and the trip takes one hour. -/
theorem claim_C5_witness :
    ∃ cls : Seg,
      cls.lanesRequired ≤ 2 ∧
      (∀ c : Seg, c.lanesRequired ≤ 2 → c.dist ≤ cls.dist) ∧
      find_optimal_travel_strategy 100 2 =
        .success (ceilDiv 100 cls.dist) 1 100 2
          [(1, ⟨cls.lanesRequired,
            List.replicate (ceilDiv 100 cls.dist).toNat cls, 100⟩)] :=
  claim_C5_low_lane_fallback 100 2 (by decide) (by decide) (by decide)

/-- Claim C7: when lanes ≥ 4 and the distance is an exact positive multiple
`400 * travelerCount * m` of the collective hourly capacity, all
`travelerCount` travelers appear in the breakdown, each with the identical
route of `m` full 400 km top-speed segments. -/
theorem claim_C7_exact_multiple (d lanes m : Int) (hl : 4 ≤ lanes)
    (hm : 1 ≤ m) (hd : d = 400 * lanes.fdiv 4 * m) :
    find_optimal_travel_strategy d lanes =
      .success m (lanes.fdiv 4) d lanes
        ((List.range (lanes.fdiv 4).toNat).map
          (fun j => (1 + j, ⟨4, List.replicate m.toNat Seg.c4, 400 * m⟩))) := by
  have hp : 1 ≤ lanes.fdiv 4 := fdiv_four_pos hl
  have hbpos : (0 : Int) < 400 * lanes.fdiv 4 := by omega
  have hdpos : 0 < d := by
    rw [hd]
    exact mul_pos hbpos (by omega)
  rw [multi_path_eq d lanes hdpos hl]
  have hceil : ceilDiv d (400 * lanes.fdiv 4) = m := by
    rw [hd]
    exact ceilDiv_mul_self m hbpos
  rw [hceil]
  congr 1
  have hcast : ((lanes.fdiv 4).toNat : Int) = lanes.fdiv 4 :=
    Int.toNat_of_nonneg (by omega)
  have hrem : d = ((lanes.fdiv 4).toNat : Int) * (400 * m) := by
    rw [hcast, hd]
    ring
  rw [hrem]
  exact multiPersons_exact m m hm (lanes.fdiv 4).toNat 1

/-- Witness for C7 at distance 800, lanes 8, m = 1: both travelers get one
full 400 km segment. -/
theorem claim_C7_witness :
    find_optimal_travel_strategy 800 8 =
      .success 1 (Int.fdiv 8 4) 800 8
        ((List.range (Int.fdiv 8 4).toNat).map
          (fun j => (1 + j, ⟨4, List.replicate (Int.toNat 1) Seg.c4,
            400 * 1⟩))) :=
  claim_C7_exact_multiple 800 8 1 (by decide) (by decide) (by decide)

/-- Claim C8: in the multi-traveler path the per-iteration covered distance
equals the assigned distance `min(remaining, target)`; the running
remaining distance never becomes negative; and the assigned distances over
all `travelerCount` iterations — including travelers omitted from the
output — sum exactly to the input distance. -/
theorem claim_C8_loop_accounting (d lanes target : Int) (hd : 0 < d)
    (hl : 4 ≤ lanes) (ht : target = 400 * ceilDiv d (400 * lanes.fdiv 4)) :
    (∀ r : Int, 0 ≤ r → coveredOf (distToCover r target) = min r target) ∧
    (∀ n : Nat, 0 ≤ remainingAfter target n d) ∧
    assignedTotal target (lanes.fdiv 4).toNat d = d := by
  have hp : 1 ≤ lanes.fdiv 4 := fdiv_four_pos hl
  have hbpos : (0 : Int) < 400 * lanes.fdiv 4 := by omega
  have hk : 1 ≤ ceilDiv d (400 * lanes.fdiv 4) := ceilDiv_pos hd hbpos
  have hT : 0 < target := by
    rw [ht]
    linarith
  refine ⟨?_, ?_, ?_⟩
  · intro r h0
    rw [coveredOf_eq]
    simp only [distToCover]
    by_cases hr : r ≤ 0
    · rw [if_pos hr]
      have hr0 : r = 0 := le_antisymm hr h0
      subst hr0
      exact (min_eq_left hT.le).symm
    · rw [if_neg hr]
  · intro n
    exact remainingAfter_nonneg target n d hd.le
  · apply assignedTotal_eq target hT (lanes.fdiv 4).toNat d hd.le
    rw [Int.toNat_of_nonneg (by omega : (0:Int) ≤ lanes.fdiv 4), ht]
    calc d ≤ (400 * lanes.fdiv 4) * ceilDiv d (400 * lanes.fdiv 4) :=
          le_mul_ceilDiv d hbpos
      _ = lanes.fdiv 4 * (400 * ceilDiv d (400 * lanes.fdiv 4)) := by ring

/-- Witness for C8 at distance 1000, lanes 4, target 1200: the single
traveler's assigned distance accounts for the whole 1000 km. -/
theorem claim_C8_witness :
    assignedTotal 1200 (Int.fdiv 4 4).toNat 1000 = 1000 :=
  (claim_C8_loop_accounting 1000 4 1200 (by decide) (by decide) (by decide)).2.2
